import Mathlib

/-!
# Verification of the To-Do terminal task tracker

Shallow embedding of `src/To-Do.py`: the task store, the per-list cursors,
the menu-action dispatcher `handle_menu_action`, and the key-handling loop
of `main`.  Terminal drawing is pure output and is not modelled; the
`curses` input calls (`getch`, `getstr`) are modelled as parameters of the
step functions, and the JSON storage file is modelled at the JSON-value
level (the `json` library is an external collaborator of the program).
-/

namespace ToDo

/-- The task store: the dict `{'todo': [...], 'done': [...]}` the program
keeps in the variable `tasks`. -/
structure TaskStore where
  todo : List String
  done : List String
deriving Repr, DecidableEq

/-- Which of the two lists a name (`'todo'` / `'done'`) denotes. -/
inductive LName where
  | todo
  | done
deriving Repr, DecidableEq

/-- `tasks[name]` — indexing the store by list name. -/
def getList (ts : TaskStore) : LName → List String
  | .todo => ts.todo
  | .done => ts.done

/-- `tasks[name] = l` — replacing one list of the store. -/
def setList (ts : TaskStore) : LName → List String → TaskStore
  | .todo, l => { ts with todo := l }
  | .done, l => { ts with done := l }

/-- `other_list = 'done' if current_list == 'todo' else 'todo'` (line 80). -/
def other : LName → LName
  | .todo => .done
  | .done => .todo

/-- One list's cursor: `{'start': ..., 'pos': ...}` (line 101).  The Python
values are integers that the program only ever increments, or decrements
when positive, so `Nat` carries them faithfully. -/
structure Cursor where
  start : Nat
  pos : Nat
deriving Repr, DecidableEq

/-- The pair `cursors = {'todo': ..., 'done': ...}` (line 101). -/
structure Cursors where
  todo : Cursor
  done : Cursor
deriving Repr, DecidableEq

/-- `cursors[name]`. -/
def getCursor (cs : Cursors) : LName → Cursor
  | .todo => cs.todo
  | .done => cs.done

/-- `cursors[name] = c`. -/
def setCursor (cs : Cursors) : LName → Cursor → Cursors
  | .todo, c => { cs with todo := c }
  | .done, c => { cs with done := c }

/-- Line 90: `cursor['pos'] = min(cursor['pos'], max(0, len(...)-1))`.
Python's `max(0, n-1)` over ints equals `Nat.max 0 (n-1)` under truncated
subtraction: both are `0` when `n = 0` and `n-1` otherwise. -/
def clampPos (c : Cursor) (n : Nat) : Cursor :=
  { c with pos := min c.pos (max 0 (n - 1)) }

/-- `l.pop(i)` / `del l[i]` (lines 81, 84): the removed element together
with the remaining list, or `none` for Python's `IndexError` when `i` is
out of range.  The remainder `l.take i ++ l.drop (i+1)` is `l.eraseIdx i`. -/
def listPop (l : List α) (i : Nat) : Option (α × List α) :=
  match l[i]? with
  | some x => some (x, l.take i ++ l.drop (i + 1))
  | none => none

/-- Models `stdscr.getstr(h-3, 2, 50).decode('utf-8')` (line 76): `curses`
returns at most 50 bytes of the typed line, so the decoded task has at most
50 characters (a multi-byte UTF-8 character only shortens it further). -/
def getstr50 (s : String) : String :=
  ⟨s.data.take 50⟩

/-- The `if`/`elif` chain of `handle_menu_action` (lines 73-89): how the
selected menu entry transforms the task store.  `input` is the line typed
when the Add Task prompt opens (unused by the other actions); `none` is
Python's `IndexError` from a `pop`/`del` at an out-of-range index.  A
`menu_pos` whose guard fails (e.g. Mark Done on an empty active list, or
`menu_pos == 5`) falls through the chain and leaves the store unchanged. -/
def menuAct (tasks : TaskStore) (current : LName) (cursor : Cursor)
    (menuPos : Int) (input : String) : Option TaskStore :=
  if menuPos = 0 then
    -- Add Task
    let task := getstr50 input
    some (if task ≠ "" then { tasks with todo := tasks.todo ++ [task] } else tasks)
  else if menuPos = 1 ∧ getList tasks current ≠ [] then
    -- Mark Done/Not Done
    match listPop (getList tasks current) (cursor.start + cursor.pos) with
    | some (task, rest) =>
        some (setList (setList tasks current rest) (other current)
                (getList tasks (other current) ++ [task]))
    | none => none
  else if menuPos = 2 ∧ getList tasks current ≠ [] then
    -- Delete Task
    match listPop (getList tasks current) (cursor.start + cursor.pos) with
    | some (_, rest) => some (setList tasks current rest)
    | none => none
  else if menuPos = 3 then
    -- Clear Done
    some { tasks with done := [] }
  else if menuPos = 4 then
    -- Mark All Done
    some { tasks with done := tasks.done ++ tasks.todo, todo := [] }
  else
    some tasks

/-- `handle_menu_action(stdscr, tasks, current_list, cursor, menu_pos)`
(lines 70-91).  `cursor` is the active list's cursor, mutated in place by
the Python code; here it is returned.  After the `if`/`elif` chain
(`menuAct`), line 90 re-clamps `cursor['pos']` against the active list's
new length on every non-raising path, and line 91 returns `menu_pos == 5`
(the quit flag). -/
def handle_menu_action (tasks : TaskStore) (current : LName) (cursor : Cursor)
    (menuPos : Int) (input : String) : Option (TaskStore × Cursor × Bool) :=
  match menuAct tasks current cursor menuPos input with
  | some tasks' =>
      some (tasks', clampPos cursor (getList tasks' current).length, decide (menuPos = 5))
  | none => none

/-- Lines 113-115 (KEY_UP outside the menu): decrement `pos` when positive,
else decrement `start` when positive. -/
def moveUp (c : Cursor) : Cursor :=
  if c.pos > 0 then { c with pos := c.pos - 1 }
  else if c.start > 0 then { c with start := c.start - 1 }
  else c

/-- Lines 118-119 (KEY_DOWN outside the menu), for list length `n` and
terminal height `h`: increment `pos` when
`pos < min(h-9, n - start - 1)`, else increment `start` when
`start + h - 8 < n`.  The comparisons are over Python ints, so they are
taken in `Int` (e.g. `n - start - 1` can be `-1`). -/
def moveDown (c : Cursor) (n h : Nat) : Cursor :=
  if (c.pos : Int) < min ((h : Int) - 9) ((n : Int) - (c.start : Int) - 1) then
    { c with pos := c.pos + 1 }
  else if (c.start : Int) + (h : Int) - 8 < (n : Int) then
    { c with start := c.start + 1 }
  else c

/-- The mutable state of `main`'s loop (lines 99-102): the store, the
active list name, both cursors, the menu index and the menu-mode flag. -/
structure AppState where
  tasks : TaskStore
  current : LName
  cursors : Cursors
  menuPos : Int
  inMenu : Bool
deriving Repr, DecidableEq

/-- The state at startup for a store loaded from disk (lines 100-102). -/
def initState (ts : TaskStore) : AppState :=
  { tasks := ts, current := .todo,
    cursors := { todo := ⟨0, 0⟩, done := ⟨0, 0⟩ }, menuPos := 0, inMenu := false }

/-- One `stdscr.getch()` result, classified the way lines 110-124 test it.
`enter` carries the line the user would type if the Add Task prompt opens. -/
inductive Key where
  | charQ
  | charM
  | up
  | down
  | left
  | right
  | enter (input : String)
  | other
deriving Repr, DecidableEq

/-- Outcome of one loop iteration: continue with a new state, leave the
loop (`break`), or die with an uncaught `IndexError`. -/
inductive StepResult where
  | running (s : AppState)
  | quitted (s : AppState)
  | crashed
deriving Repr, DecidableEq

/-- One iteration of `main`'s `while True` body (lines 104-126) for a key
`k`, with the terminal height `h` as re-read by `getmaxyx` that iteration.
`cursor = cursors[current_list]` is an alias, so its updates land back in
`cursors`. -/
def step (s : AppState) (h : Nat) (k : Key) : StepResult :=
  let cursor := getCursor s.cursors s.current
  let n := (getList s.tasks s.current).length
  match k with
  | .charQ => .quitted s
  | .charM => .running { s with inMenu := !s.inMenu }
  | .up =>
      if s.inMenu then .running { s with menuPos := (s.menuPos - 1) % 6 }
      else .running { s with cursors := setCursor s.cursors s.current (moveUp cursor) }
  | .down =>
      if s.inMenu then .running { s with menuPos := (s.menuPos + 1) % 6 }
      else .running { s with cursors := setCursor s.cursors s.current (moveDown cursor n h) }
  | .left =>
      if s.inMenu then .running s else .running { s with current := .todo }
  | .right =>
      if s.inMenu then .running s else .running { s with current := .done }
  | .enter input =>
      if s.inMenu then
        match handle_menu_action s.tasks s.current cursor s.menuPos input with
        | some (ts', c', quit) =>
            let s' := { s with tasks := ts', cursors := setCursor s.cursors s.current c' }
            if quit then .quitted s'
            else .running { s' with inMenu := false }
        | none => .crashed
      else .running s
  | .other => .running s

/-- Run the loop over a sequence of `(height, key)` events; a `break` or an
uncaught exception stops the run. -/
def run (s : AppState) : List (Nat × Key) → StepResult
  | [] => .running s
  | (h, k) :: rest =>
      match step s h k with
      | .running s' => run s' rest
      | r => r

/-- The combined contents of the two lists, as a multiset: the bag of task
occurrences the store holds, each occurrence living in exactly one of the
two lists. -/
def bag (ts : TaskStore) : Multiset String :=
  ((ts.todo ++ ts.done : List String) : Multiset String)

/-- A sequence of dispatched menu actions at the store level: each entry
names the active list, the active cursor and the selected menu index, and
the store is threaded through `handle_menu_action` (the input line is
irrelevant to every action but Add Task).  `none` when some action raises
`IndexError`. -/
def menuActionSeq (ts : TaskStore) : List (LName × Cursor × Int) → Option TaskStore
  | [] => some ts
  | (cur, c, m) :: rest =>
      match handle_menu_action ts cur c m "" with
      | some out => menuActionSeq out.1 rest
      | none => none

/-! ## Persistence (lines 29-40)

`save_tasks` is `json.dump({'todo': ..., 'done': ...})` and `load_tasks` is
`json.load` with `FileNotFoundError` mapped to empty lists.  The `json`
library is external to the repository, so serialization is modelled at the
JSON-value level: the file on disk holds a JSON value (or nothing), per the
spec's storage format `{"todo": [string...], "done": [string...]}`. -/

/-- A JSON value, as produced by `json.dump` / consumed by `json.load`. -/
inductive Json where
  | null
  | bool (b : Bool)
  | num (n : Int)
  | str (s : String)
  | arr (elems : List Json)
  | obj (members : List (String × Json))

/-- `save_tasks(tasks)` (lines 37-40): the JSON value written to
`tasks.json`, the two lists serialized in full as arrays of strings. -/
def save_tasks (ts : TaskStore) : Json :=
  .obj [("todo", .arr (ts.todo.map .str)), ("done", .arr (ts.done.map .str))]

/-- Lookup of a key in a JSON object's members, last binding winning as in
a Python dict built by `json.load`. -/
def jsonLookup (key : String) : List (String × Json) → Option Json
  | [] => none
  | (k, v) :: rest =>
      match jsonLookup key rest with
      | some r => some r
      | none => if k = key then some v else none

/-- Read a JSON array element list back as a list of strings; `none` when
some element is not a string (a malformed record). -/
def decodeStrings : List Json → Option (List String)
  | [] => some []
  | .str s :: rest => (decodeStrings rest).map (s :: ·)
  | _ => none

/-- Interpret a loaded JSON value as the task store the program indexes by
`'todo'` and `'done'`; `none` models a malformed record, on which the
program dies at the first use site. -/
def storeOfJson (j : Json) : Option TaskStore :=
  match j with
  | .obj ms =>
      match jsonLookup "todo" ms, jsonLookup "done" ms with
      | some (.arr ts), some (.arr ds) =>
          match decodeStrings ts, decodeStrings ds with
          | some todo, some done => some { todo := todo, done := done }
          | _, _ => none
      | _, _ => none
  | _ => none

/-- `load_tasks()` (lines 29-35): the file holds a JSON value or does not
exist (`none`), and a missing file yields empty lists. -/
def load_tasks (file : Option Json) : Option TaskStore :=
  match file with
  | none => some { todo := [], done := [] }
  | some j => storeOfJson j

/-! ## Basic lemmas about the embedding -/

theorem getList_setList_self (ts : TaskStore) (n : LName) (l : List String) :
    getList (setList ts n l) n = l := by
  cases n <;> rfl

theorem getList_setList_of_ne (ts : TaskStore) {n n' : LName} (l : List String)
    (h : n' ≠ n) : getList (setList ts n l) n' = getList ts n' := by
  cases n <;> cases n' <;> first | rfl | exact absurd rfl h

theorem other_ne (n : LName) : other n ≠ n := by
  cases n <;> simp [other]

theorem other_other (n : LName) : other (other n) = n := by
  cases n <;> rfl

theorem getCursor_setCursor_of_ne (cs : Cursors) {n n' : LName} (c : Cursor)
    (h : n' ≠ n) : getCursor (setCursor cs n c) n' = getCursor cs n' := by
  cases n <;> cases n' <;> first | rfl | exact absurd rfl h

theorem getstr50_eq_empty_iff (s : String) : getstr50 s = "" ↔ s = "" := by
  constructor
  · intro h
    have hd : s.data.take 50 = ([] : List Char) := congrArg String.data h
    rcases List.take_eq_nil_iff.mp hd with h50 | hnil
    · exact absurd h50 (by norm_num)
    · cases s with
      | mk data => cases hnil; rfl
  · intro h
    subst h
    rfl

theorem handle_menu_action_eq_some_iff {ts : TaskStore} {cur : LName} {c : Cursor}
    {m : Int} {input : String} {out : TaskStore × Cursor × Bool} :
    handle_menu_action ts cur c m input = some out ↔
      ∃ ts', menuAct ts cur c m input = some ts' ∧
        out = (ts', clampPos c (getList ts' cur).length, decide (m = 5)) := by
  unfold handle_menu_action
  cases h : menuAct ts cur c m input <;> simp [eq_comm]

/-! ## The claims -/

/-- C4, counterexample: the claim discards any line that is empty after
trimming whitespace, but the code tests the raw line (`if task:`), so the
whitespace-only input `" "` — non-empty, yet empty once trimmed — is
appended to `todo` as a task. -/
theorem claim4_counterexample :
    (" ").data.all Char.isWhitespace = true ∧
    handle_menu_action ⟨[], []⟩ .todo ⟨0, 0⟩ 0 " " =
      some (⟨[" "], []⟩, ⟨0, 0⟩, false) := by
  constructor
  · decide
  · decide

/-- C4 (amended): for every input line at the Add Task prompt, if the line
is empty (no trimming is applied) no task is added and both lists are
unchanged; otherwise the text read by the prompt is appended to the end of
`todo` — always `todo`, regardless of which list is active. -/
theorem claim4_add_task (ts : TaskStore) (cur : LName) (c : Cursor) (input : String) :
    (handle_menu_action ts cur c 0 input).map (fun out => (out.1.todo, out.1.done)) =
      some ((if input = "" then ts.todo else ts.todo ++ [getstr50 input]), ts.done) := by
  unfold handle_menu_action menuAct
  by_cases h : input = ""
  · subst h
    simp [show getstr50 "" = "" from rfl]
  · have hne : getstr50 input ≠ "" := fun hh => h ((getstr50_eq_empty_iff input).mp hh)
    simp [hne, h]

/-- C6: Mark All Done appends all of `todo` to the end of `done`, in their
original order and behind the prior contents of `done`, then empties
`todo`; in particular `todo=["A","B","C"]`, `done=[]` becomes `todo=[]`,
`done=["A","B","C"]`. -/
theorem claim6_mark_all_done :
    (∀ (ts : TaskStore) (cur : LName) (c : Cursor) (input : String),
        (handle_menu_action ts cur c 4 input).map (fun out => (out.1.todo, out.1.done)) =
          some (([] : List String), ts.done ++ ts.todo)) ∧
    handle_menu_action ⟨["A", "B", "C"], []⟩ .todo ⟨0, 0⟩ 4 "" =
      some (⟨[], ["A", "B", "C"]⟩, ⟨0, 0⟩, false) := by
  constructor
  · intro ts cur c input
    unfold handle_menu_action menuAct
    norm_num
  · decide

/-- C7: with 20 items and a terminal height of 13 (5 visible rows), four
Down presses move `pos` through 1,2,3,4 with `start` staying 0, and a fifth
increments `start` to 1 with `pos` staying 4; in general, for a window of
`v` visible rows (`h = v+8`), `moveDown` increments `pos` exactly when
`pos < min(v-1, n-start-1)` and otherwise increments `start` exactly when
`start + v < n`. -/
theorem claim7_move_down :
    (moveDown ⟨0, 0⟩ 20 13 = ⟨0, 1⟩ ∧ moveDown ⟨0, 1⟩ 20 13 = ⟨0, 2⟩ ∧
     moveDown ⟨0, 2⟩ 20 13 = ⟨0, 3⟩ ∧ moveDown ⟨0, 3⟩ 20 13 = ⟨0, 4⟩ ∧
     moveDown ⟨0, 4⟩ 20 13 = ⟨1, 4⟩) ∧
    (∀ (c : Cursor) (n v : Nat),
        moveDown c n (v + 8) =
          if (c.pos : Int) < min ((v : Int) - 1) ((n : Int) - (c.start : Int) - 1) then
            { c with pos := c.pos + 1 }
          else if (c.start : Int) + (v : Int) < (n : Int) then
            { c with start := c.start + 1 }
          else c) := by
  constructor
  · decide
  · intro c n v
    have h1 : ((v + 8 : Nat) : Int) - 9 = (v : Int) - 1 := by push_cast; ring
    have h2 : (c.start : Int) + ((v + 8 : Nat) : Int) - 8 = (c.start : Int) + (v : Int) := by
      push_cast; ring
    unfold moveDown
    rw [h1, h2]

theorem decodeStrings_map_str (l : List String) :
    decodeStrings (l.map .str) = some l := by
  induction l with
  | nil => rfl
  | cons x xs ih => simp [decodeStrings, ih]

/-- C8: round-trip persistence — saving any task store and loading it back
yields the identical store, both sequences preserved in content and
order. -/
theorem claim8_round_trip (ts : TaskStore) :
    load_tasks (some (save_tasks ts)) = some ts := by
  have htodo : ∀ x y : Json,
      jsonLookup "todo" [("todo", x), ("done", y)] = some x := fun x y => rfl
  have hdone : ∀ x y : Json,
      jsonLookup "done" [("todo", x), ("done", y)] = some y := fun x y => rfl
  simp [load_tasks, save_tasks, storeOfJson, htodo, hdone, decodeStrings_map_str]

/-- C10: every task the Add Task action appends was read by a prompt
bounded at 50 bytes, so it has at most 50 characters — the action either
leaves `todo` unchanged or appends the (truncated) prompt line, whose
length is at most 50. -/
theorem claim10_task_length :
    (∀ s : String, (getstr50 s).length ≤ 50) ∧
    (∀ (ts : TaskStore) (cur : LName) (c : Cursor) (input : String)
        (out : TaskStore × Cursor × Bool),
        handle_menu_action ts cur c 0 input = some out →
        out.1.todo = ts.todo ∨ out.1.todo = ts.todo ++ [getstr50 input]) := by
  constructor
  · intro s
    show (s.data.take 50).length ≤ 50
    rw [List.length_take]
    exact min_le_left _ _
  · intro ts cur c input out h
    rcases handle_menu_action_eq_some_iff.mp h with ⟨ts', hact, rfl⟩
    unfold menuAct at hact
    rw [if_pos rfl] at hact
    by_cases hne : getstr50 input = ""
    · left
      simp [hne] at hact
      rw [← hact]
    · right
      simp [hne] at hact
      rw [← hact]

/-- C10 witness: the theorem applied to the store `⟨[], []⟩`, the input
`"task"`, and the resulting appended task. -/
theorem claim10_task_length_witness :
    (getstr50 "task").length ≤ 50 ∧
    (((⟨["task"], []⟩ : TaskStore), (⟨0, 0⟩ : Cursor), false).1.todo =
        (⟨[], []⟩ : TaskStore).todo ∨
      ((⟨["task"], []⟩ : TaskStore), (⟨0, 0⟩ : Cursor), false).1.todo =
        (⟨[], []⟩ : TaskStore).todo ++ [getstr50 "task"]) :=
  ⟨claim10_task_length.1 "task",
   claim10_task_length.2 ⟨[], []⟩ .todo ⟨0, 0⟩ "task"
     (⟨["task"], []⟩, ⟨0, 0⟩, false) (by decide)⟩

/-- C1, counterexample: with the done list active, Mark All Done empties
`todo` but re-clamps only the active (`done`) cursor; the todo cursor keeps
`pos = 1` although the claim demands it be re-clamped to
`min(1, max(0, 0-1)) = 0` for the new length 0. -/
theorem claim1_counterexample :
    step ⟨⟨["A", "B"], []⟩, .done, ⟨⟨0, 1⟩, ⟨0, 0⟩⟩, 4, true⟩ 50 (.enter "") =
      .running ⟨⟨[], ["A", "B"]⟩, .done, ⟨⟨0, 1⟩, ⟨0, 0⟩⟩, 4, false⟩ ∧
    (⟨0, 1⟩ : Cursor) ≠ clampPos ⟨0, 1⟩ ([] : List String).length := by
  constructor
  · decide
  · decide

/-- C1 (amended): after every menu action the ACTIVE list's cursor is
re-clamped — its `pos` becomes `min(pos, max(0, n-1))` for the new length
`n` of the active list, `start` untouched — while the inactive list's
cursor is never re-clamped, even when that list was the one structurally
modified. -/
theorem claim1_active_cursor_reclamped :
    (∀ (ts : TaskStore) (cur : LName) (c : Cursor) (m : Int) (input : String)
        (out : TaskStore × Cursor × Bool),
        handle_menu_action ts cur c m input = some out →
        out.2.1 = clampPos c (getList out.1 cur).length) ∧
    (∀ (s : AppState) (h : Nat) (input : String) (r : AppState),
        (step s h (.enter input) = .running r ∨ step s h (.enter input) = .quitted r) →
        getCursor r.cursors (other s.current) = getCursor s.cursors (other s.current)) := by
  constructor
  · intro ts cur c m input out h
    rcases handle_menu_action_eq_some_iff.mp h with ⟨ts', hact, rfl⟩
    rfl
  · intro s h input r hr
    by_cases hm : s.inMenu
    · rcases hh : handle_menu_action s.tasks s.current (getCursor s.cursors s.current)
          s.menuPos input with _ | ⟨ts', c', q⟩
      · simp [step, hm, hh] at hr
      · cases q
        · simp [step, hm, hh] at hr
          rw [← hr]
          exact getCursor_setCursor_of_ne _ _ (other_ne _)
        · simp [step, hm, hh] at hr
          rw [← hr]
          exact getCursor_setCursor_of_ne _ _ (other_ne _)
    · simp [step, hm] at hr
      rw [← hr]

/-- C1 witness: the amended theorem applied to a concrete Mark All Done
(the cursor of the active todo list is clamped from 2 to 0) and to a
concrete Clear Done step (the inactive done cursor is untouched). -/
theorem claim1_active_cursor_reclamped_witness :
    (⟨(⟨0, 0⟩ : Cursor), false⟩ : Cursor × Bool).1 =
      clampPos ⟨0, 2⟩ (getList ⟨[], ["A", "B", "C"]⟩ .todo).length ∧
    getCursor ⟨⟨0, 0⟩, ⟨0, 7⟩⟩ (other .todo) =
      getCursor ⟨⟨0, 0⟩, ⟨0, 7⟩⟩ (other .todo) :=
  ⟨claim1_active_cursor_reclamped.1 ⟨["A", "B", "C"], []⟩ .todo ⟨0, 2⟩ 4 ""
      (⟨[], ["A", "B", "C"]⟩, ⟨0, 0⟩, false) (by decide),
   claim1_active_cursor_reclamped.2
      ⟨⟨["A"], []⟩, .todo, ⟨⟨0, 0⟩, ⟨0, 7⟩⟩, 3, true⟩ 50 ""
      ⟨⟨["A"], []⟩, .todo, ⟨⟨0, 0⟩, ⟨0, 7⟩⟩, 3, false⟩ (Or.inl (by decide))⟩

/-- C5, counterexample: the claim promises that whenever the active list is
non-empty, Mark Done/Not Done removes the item at `start + pos`; but with
`todo = ["A"]` (non-empty) and a cursor at `start=1, pos=0` the index is
out of range and the code raises `IndexError` (modelled as `none`) instead
of moving any item. -/
theorem claim5_counterexample :
    handle_menu_action ⟨["A"], []⟩ .todo ⟨1, 0⟩ 1 "" = none := by
  decide

/-- C5 (amended): whenever `start + pos` is a valid index of the active
list (in particular the list is non-empty), Mark Done/Not Done removes
exactly the item at that index from the active list and appends it to the
end of the other list; when the active list is empty, both lists are
unchanged and no error occurs. -/
theorem claim5_mark_done :
    (∀ (ts : TaskStore) (cur : LName) (c : Cursor) (input : String) (x : String),
        (getList ts cur)[c.start + c.pos]? = some x →
        (handle_menu_action ts cur c 1 input).map
            (fun out => (getList out.1 cur, getList out.1 (other cur))) =
          some ((getList ts cur).eraseIdx (c.start + c.pos),
                getList ts (other cur) ++ [x])) ∧
    (∀ (ts : TaskStore) (cur : LName) (c : Cursor) (input : String),
        getList ts cur = [] →
        (handle_menu_action ts cur c 1 input).map (fun out => (out.1.todo, out.1.done)) =
          some (ts.todo, ts.done)) := by
  constructor
  · intro ts cur c input x hx
    have hne : getList ts cur ≠ [] := by
      intro h0
      rw [h0] at hx
      simp at hx
    have hpop : listPop (getList ts cur) (c.start + c.pos) =
        some (x, (getList ts cur).take (c.start + c.pos) ++
          (getList ts cur).drop (c.start + c.pos + 1)) := by
      unfold listPop
      rw [hx]
    unfold handle_menu_action menuAct
    norm_num [hne, hpop]
    rw [getList_setList_of_ne _ _ (Ne.symm (other_ne cur)), getList_setList_self,
      getList_setList_self, List.eraseIdx_eq_take_drop_succ]
    exact ⟨rfl, rfl⟩
  · intro ts cur c input hempty
    unfold handle_menu_action menuAct
    norm_num [hempty]

/-- C5 witness: the spec's own scenario — `todo=["A","B"]`, `done=[]`,
index 0 — yields `todo=["B"]`, `done=["A"]`; and Mark Done on an empty
active todo list leaves both lists unchanged. -/
theorem claim5_mark_done_witness :
    (handle_menu_action ⟨["A", "B"], []⟩ .todo ⟨0, 0⟩ 1 "").map
        (fun out => (getList out.1 .todo, getList out.1 (other .todo))) =
      some (["B"], ["A"]) ∧
    (handle_menu_action ⟨[], ["X"]⟩ .todo ⟨0, 0⟩ 1 "").map
        (fun out => (out.1.todo, out.1.done)) = some ([], ["X"]) :=
  ⟨claim5_mark_done.1 ⟨["A", "B"], []⟩ .todo ⟨0, 0⟩ "" "A" (by decide),
   claim5_mark_done.2 ⟨[], ["X"]⟩ .todo ⟨0, 0⟩ "" (by decide)⟩

theorem listPop_perm {α : Type} {l : List α} {i : Nat} {x : α} {rest : List α}
    (h : listPop l i = some (x, rest)) : l.Perm (x :: rest) := by
  unfold listPop at h
  cases hx : l[i]? with
  | none =>
      rw [hx] at h
      cases h
  | some y =>
      rw [hx] at h
      injection h with h1
      injection h1 with hy hrest
      subst hy
      subst hrest
      obtain ⟨hlt, hget⟩ := List.getElem?_eq_some.mp hx
      have hl : l = l.take i ++ (y :: l.drop (i + 1)) := by
        conv_lhs => rw [← List.take_append_drop i l]
        rw [← List.getElem_cons_drop l i hlt, hget]
      conv_lhs => rw [hl]
      exact List.perm_middle

theorem menuAct_one_bag {ts : TaskStore} {cur : LName} {c : Cursor} {input : String}
    {ts' : TaskStore} (h : menuAct ts cur c 1 input = some ts') : bag ts' = bag ts := by
  unfold menuAct at h
  by_cases hne : getList ts cur = []
  · norm_num [hne] at h
    subst h
    rfl
  · rcases hp : listPop (getList ts cur) (c.start + c.pos) with _ | ⟨x, rest⟩
    · norm_num [hne, hp] at h
      exact Option.noConfusion h
    · norm_num [hne, hp] at h
      subst h
      have hperm := listPop_perm hp
      unfold bag
      rw [Multiset.coe_eq_coe]
      cases cur
      · show (rest ++ (ts.done ++ [x])).Perm (ts.todo ++ ts.done)
        have p1 : (rest ++ (ts.done ++ [x])).Perm ((rest ++ ts.done) ++ [x]) := by
          rw [List.append_assoc]
        have p2 : ((rest ++ ts.done) ++ [x]).Perm (x :: (rest ++ ts.done)) :=
          List.perm_append_singleton _ _
        have p3 : ((x :: rest) ++ ts.done).Perm (ts.todo ++ ts.done) :=
          List.Perm.append_right _ hperm.symm
        exact (p1.trans p2).trans p3
      · show ((ts.todo ++ [x]) ++ rest).Perm (ts.todo ++ ts.done)
        have p1 : ((ts.todo ++ [x]) ++ rest).Perm (ts.todo ++ (x :: rest)) := by
          rw [List.append_assoc]
          exact List.Perm.refl _
        exact p1.trans (List.Perm.append_left _ hperm.symm)

theorem menuAct_four_bag {ts : TaskStore} {cur : LName} {c : Cursor} {input : String}
    {ts' : TaskStore} (h : menuAct ts cur c 4 input = some ts') : bag ts' = bag ts := by
  unfold menuAct at h
  norm_num at h
  subst h
  unfold bag
  rw [Multiset.coe_eq_coe]
  show (([] : List String) ++ (ts.done ++ ts.todo)).Perm (ts.todo ++ ts.done)
  rw [List.nil_append]
  exact List.perm_append_comm

theorem menuAct_two_bag_le {ts : TaskStore} {cur : LName} {c : Cursor} {input : String}
    {ts' : TaskStore} (h : menuAct ts cur c 2 input = some ts') : bag ts' ≤ bag ts := by
  unfold menuAct at h
  by_cases hne : getList ts cur = []
  · norm_num [hne] at h
    subst h
    exact le_refl _
  · rcases hp : listPop (getList ts cur) (c.start + c.pos) with _ | ⟨x, rest⟩
    · norm_num [hne, hp] at h
      exact Option.noConfusion h
    · norm_num [hne, hp] at h
      subst h
      have hrest : rest = (getList ts cur).eraseIdx (c.start + c.pos) := by
        unfold listPop at hp
        cases hx : (getList ts cur)[c.start + c.pos]? with
        | none => rw [hx] at hp; cases hp
        | some y =>
            rw [hx] at hp
            injection hp with h1
            injection h1 with _ hr
            rw [← hr, List.eraseIdx_eq_take_drop_succ]
      have hsub : rest.Sublist (getList ts cur) := by
        rw [hrest]
        exact List.eraseIdx_sublist _ _
      unfold bag
      rw [Multiset.coe_le]
      cases cur
      · exact (List.Sublist.append_right hsub ts.done).subperm
      · exact (List.Sublist.append_left hsub ts.todo).subperm

theorem menuAct_three_bag_le {ts : TaskStore} {cur : LName} {c : Cursor} {input : String}
    {ts' : TaskStore} (h : menuAct ts cur c 3 input = some ts') : bag ts' ≤ bag ts := by
  unfold menuAct at h
  norm_num at h
  subst h
  unfold bag
  rw [Multiset.coe_le]
  show (ts.todo ++ ([] : List String)).Subperm (ts.todo ++ ts.done)
  exact (List.Sublist.append_left (List.nil_sublist _) ts.todo).subperm

/-- C3: Mark Done/Not Done and Mark All Done move task occurrences between
the lists without copying or dropping any (the combined bag of the two
lists is preserved exactly), every one of the four store-mutating actions
can only shrink the combined bag (no action introduces an occurrence into
both lists), and hence after any sequence of Mark Done/Not Done, Delete,
Clear Done and Mark All Done actions each surviving occurrence still lives
in exactly one list: the final combined bag is a sub-bag of the initial
one. -/
theorem claim3_exclusive_ownership :
    (∀ (ts : TaskStore) (cur : LName) (c : Cursor) (input : String)
        (out : TaskStore × Cursor × Bool),
        handle_menu_action ts cur c 1 input = some out → bag out.1 = bag ts) ∧
    (∀ (ts : TaskStore) (cur : LName) (c : Cursor) (input : String)
        (out : TaskStore × Cursor × Bool),
        handle_menu_action ts cur c 4 input = some out → bag out.1 = bag ts) ∧
    (∀ (ts : TaskStore) (cur : LName) (c : Cursor) (m : Int) (input : String)
        (out : TaskStore × Cursor × Bool),
        (m = 1 ∨ m = 2 ∨ m = 3 ∨ m = 4) →
        handle_menu_action ts cur c m input = some out → bag out.1 ≤ bag ts) ∧
    (∀ (l : List (LName × Cursor × Int)) (ts ts' : TaskStore),
        (∀ a ∈ l, a.2.2 = (1 : Int) ∨ a.2.2 = 2 ∨ a.2.2 = 3 ∨ a.2.2 = 4) →
        menuActionSeq ts l = some ts' → bag ts' ≤ bag ts) := by
  have h1 : ∀ (ts : TaskStore) (cur : LName) (c : Cursor) (input : String)
      (out : TaskStore × Cursor × Bool),
      handle_menu_action ts cur c 1 input = some out → bag out.1 = bag ts := by
    intro ts cur c input out h
    rcases handle_menu_action_eq_some_iff.mp h with ⟨ts', hact, rfl⟩
    exact menuAct_one_bag hact
  have h4 : ∀ (ts : TaskStore) (cur : LName) (c : Cursor) (input : String)
      (out : TaskStore × Cursor × Bool),
      handle_menu_action ts cur c 4 input = some out → bag out.1 = bag ts := by
    intro ts cur c input out h
    rcases handle_menu_action_eq_some_iff.mp h with ⟨ts', hact, rfl⟩
    exact menuAct_four_bag hact
  have hle : ∀ (ts : TaskStore) (cur : LName) (c : Cursor) (m : Int) (input : String)
      (out : TaskStore × Cursor × Bool),
      (m = 1 ∨ m = 2 ∨ m = 3 ∨ m = 4) →
      handle_menu_action ts cur c m input = some out → bag out.1 ≤ bag ts := by
    intro ts cur c m input out hm h
    rcases handle_menu_action_eq_some_iff.mp h with ⟨ts', hact, rfl⟩
    rcases hm with rfl | rfl | rfl | rfl
    · exact le_of_eq (menuAct_one_bag hact)
    · exact menuAct_two_bag_le hact
    · exact menuAct_three_bag_le hact
    · exact le_of_eq (menuAct_four_bag hact)
  refine ⟨h1, h4, hle, ?_⟩
  intro l
  induction l with
  | nil =>
      intro ts ts' _ hseq
      unfold menuActionSeq at hseq
      injection hseq with hseq
      subst hseq
      exact le_refl _
  | cons a rest ih =>
      intro ts ts' hall hseq
      obtain ⟨cur, c, m⟩ := a
      rcases hh : handle_menu_action ts cur c m "" with _ | out
      · unfold menuActionSeq at hseq
        rw [hh] at hseq
        cases hseq
      · unfold menuActionSeq at hseq
        rw [hh] at hseq
        have hm := hall (cur, c, m) (List.mem_cons_self _ _)
        exact le_trans
          (ih out.1 ts' (fun a ha => hall a (List.mem_cons_of_mem _ ha)) hseq)
          (hle ts cur c m "" out hm hh)

/-- C3 witness: the exactness part applied to a concrete Mark Done (the
combined bag of `⟨["B"],["A"]⟩` equals that of `⟨["A","B"],[]⟩`), and the
sequence part applied to Mark All Done followed by Clear Done from
`⟨["A","B"],[]⟩`, ending at the empty store. -/
theorem claim3_exclusive_ownership_witness :
    bag ⟨["B"], ["A"]⟩ = bag ⟨["A", "B"], []⟩ ∧
    bag ⟨[], []⟩ ≤ bag ⟨["A", "B"], []⟩ :=
  ⟨claim3_exclusive_ownership.1 ⟨["A", "B"], []⟩ .todo ⟨0, 0⟩ ""
      (⟨["B"], ["A"]⟩, ⟨0, 0⟩, false) (by decide),
   claim3_exclusive_ownership.2.2.2 [(.todo, ⟨0, 0⟩, 4), (.todo, ⟨0, 0⟩, 3)]
      ⟨["A", "B"], []⟩ ⟨[], []⟩ (by decide) (by decide)⟩

theorem step_menuPos_bound {s : AppState} {h : Nat} {k : Key} {r : AppState}
    (h6 : 0 ≤ s.menuPos ∧ s.menuPos < 6)
    (hr : step s h k = .running r ∨ step s h k = .quitted r) :
    0 ≤ r.menuPos ∧ r.menuPos < 6 := by
  have hmod : ∀ m : Int, 0 ≤ m % 6 ∧ m % 6 < 6 := fun m =>
    ⟨Int.emod_nonneg m (by norm_num), Int.emod_lt_of_pos m (by norm_num)⟩
  cases k with
  | charQ =>
      simp [step] at hr
      rw [← hr]
      exact h6
  | charM =>
      simp [step] at hr
      rw [← hr]
      exact h6
  | up =>
      by_cases hm : s.inMenu
      · simp [step, hm] at hr
        rw [← hr]
        exact hmod _
      · simp [step, hm] at hr
        rw [← hr]
        exact h6
  | down =>
      by_cases hm : s.inMenu
      · simp [step, hm] at hr
        rw [← hr]
        exact hmod _
      · simp [step, hm] at hr
        rw [← hr]
        exact h6
  | left =>
      by_cases hm : s.inMenu <;>
        · simp [step, hm] at hr
          rw [← hr]
          exact h6
  | right =>
      by_cases hm : s.inMenu <;>
        · simp [step, hm] at hr
          rw [← hr]
          exact h6
  | enter input =>
      by_cases hm : s.inMenu
      · rcases hh : handle_menu_action s.tasks s.current (getCursor s.cursors s.current)
            s.menuPos input with _ | ⟨ts', c', q⟩
        · simp [step, hm, hh] at hr
        · cases q
          · simp [step, hm, hh] at hr
            rw [← hr]
            exact h6
          · simp [step, hm, hh] at hr
            rw [← hr]
            exact h6
      · simp [step, hm] at hr
        rw [← hr]
        exact h6
  | other =>
      simp [step] at hr
      rw [← hr]
      exact h6

theorem run_menuPos_bound :
    ∀ (events : List (Nat × Key)) (s r : AppState),
      0 ≤ s.menuPos ∧ s.menuPos < 6 →
      (run s events = .running r ∨ run s events = .quitted r) →
      0 ≤ r.menuPos ∧ r.menuPos < 6 := by
  intro events
  induction events with
  | nil =>
      intro s r h6 hr
      simp [run] at hr
      rw [← hr]
      exact h6
  | cons e rest ih =>
      intro s r h6 hr
      obtain ⟨h, k⟩ := e
      rcases hstep : step s h k with s' | s' | _
      · have hrun : run s ((h, k) :: rest) = run s' rest := by
          simp [run, hstep]
        rw [hrun] at hr
        exact ih s' r (step_menuPos_bound h6 (Or.inl hstep)) hr
      · have hrun : run s ((h, k) :: rest) = .quitted s' := by
          simp [run, hstep]
        rw [hrun] at hr
        rcases hr with hr | hr
        · cases hr
        · injection hr with hr
          rw [← hr]
          exact step_menuPos_bound h6 (Or.inr hstep)
      · have hrun : run s ((h, k) :: rest) = .crashed := by
          simp [run, hstep]
        rw [hrun] at hr
        rcases hr with hr | hr <;> cases hr

/-- C9: while in menu mode each Down key sets `menuPos` to
`(menuPos+1) mod 6` and each Up key to `(menuPos-1) mod 6` (Python's `%`
is `Int.emod`: non-negative for the positive modulus, so the cycle wraps
both ways), toggling the menu with M never touches `menuPos`, and over any
event sequence `menuPos` stays in `[0, 5]`. -/
theorem claim9_menu_wrap :
    (∀ (s : AppState) (h : Nat), s.inMenu = true →
        step s h .down = .running { s with menuPos := (s.menuPos + 1) % 6 }) ∧
    (∀ (s : AppState) (h : Nat), s.inMenu = true →
        step s h .up = .running { s with menuPos := (s.menuPos - 1) % 6 }) ∧
    (∀ (s : AppState) (h : Nat),
        step s h .charM = .running { s with inMenu := !s.inMenu }) ∧
    (∀ (s : AppState) (events : List (Nat × Key)) (r : AppState),
        0 ≤ s.menuPos → s.menuPos < 6 →
        (run s events = .running r ∨ run s events = .quitted r) →
        0 ≤ r.menuPos ∧ r.menuPos < 6) := by
  refine ⟨?_, ?_, ?_, ?_⟩
  · intro s h hm
    simp [step, hm]
  · intro s h hm
    simp [step, hm]
  · intro s h
    rfl
  · intro s events r h0 h6 hr
    exact run_menuPos_bound events s r ⟨h0, h6⟩ hr

/-- C9 witness: from `menuPos = 5` in menu mode, Down wraps to 0 and Up
returns to 4; M toggles the mode without resetting `menuPos`; and after
the event sequence M, Down the menu index is still within `[0, 5]`. -/
theorem claim9_menu_wrap_witness :
    step ⟨⟨[], []⟩, .todo, ⟨⟨0, 0⟩, ⟨0, 0⟩⟩, 5, true⟩ 50 .down =
      .running ⟨⟨[], []⟩, .todo, ⟨⟨0, 0⟩, ⟨0, 0⟩⟩, (5 + 1) % 6, true⟩ ∧
    step ⟨⟨[], []⟩, .todo, ⟨⟨0, 0⟩, ⟨0, 0⟩⟩, 5, true⟩ 50 .up =
      .running ⟨⟨[], []⟩, .todo, ⟨⟨0, 0⟩, ⟨0, 0⟩⟩, (5 - 1) % 6, true⟩ ∧
    step ⟨⟨[], []⟩, .todo, ⟨⟨0, 0⟩, ⟨0, 0⟩⟩, 5, false⟩ 50 .charM =
      .running ⟨⟨[], []⟩, .todo, ⟨⟨0, 0⟩, ⟨0, 0⟩⟩, 5, !false⟩ ∧
    (0 ≤ (⟨⟨[], []⟩, .todo, ⟨⟨0, 0⟩, ⟨0, 0⟩⟩, 0, true⟩ : AppState).menuPos ∧
      (⟨⟨[], []⟩, .todo, ⟨⟨0, 0⟩, ⟨0, 0⟩⟩, 0, true⟩ : AppState).menuPos < 6) :=
  ⟨claim9_menu_wrap.1 ⟨⟨[], []⟩, .todo, ⟨⟨0, 0⟩, ⟨0, 0⟩⟩, 5, true⟩ 50 rfl,
   claim9_menu_wrap.2.1 ⟨⟨[], []⟩, .todo, ⟨⟨0, 0⟩, ⟨0, 0⟩⟩, 5, true⟩ 50 rfl,
   claim9_menu_wrap.2.2.1 ⟨⟨[], []⟩, .todo, ⟨⟨0, 0⟩, ⟨0, 0⟩⟩, 5, false⟩ 50,
   claim9_menu_wrap.2.2.2 ⟨⟨[], []⟩, .todo, ⟨⟨0, 0⟩, ⟨0, 0⟩⟩, 5, false⟩
      [(50, .charM), (50, .down)] ⟨⟨[], []⟩, .todo, ⟨⟨0, 0⟩, ⟨0, 0⟩⟩, 0, true⟩
      (by decide) (by decide) (Or.inl (by decide))⟩

/-- C2: the cursor invariant is the stated design intent (spec §7 even
says out-of-range indices are always prevented), but the code violates it
on reachable states, because line 90 re-clamps only the active cursor's
`pos` and never `start`.  First run: from `todo=["A","B"]` (height 50),
the keys Down, Right, M, Down×4, Enter execute Mark All Done while `done`
is active, leaving `todo = []` with the todo cursor at `pos = 1` — the
claim requires `pos = 0` on an empty list.  Second run: from the same
store at height 9 (one visible row), Down scrolls `start` to 1, and
deleting the selected task twice (M, Down×2, Enter, M, Enter) raises an
uncaught `IndexError`: the second delete uses `start+pos = 1` on the
one-element list `["A"]`. -/
theorem claim2_cursor_invariant_violated :
    (run (initState ⟨["A", "B"], []⟩)
        [(50, .down), (50, .right), (50, .charM), (50, .down), (50, .down),
         (50, .down), (50, .down), (50, .enter "")] =
      .running ⟨⟨[], ["A", "B"]⟩, .done, ⟨⟨0, 1⟩, ⟨0, 0⟩⟩, 4, false⟩ ∧
      getList ⟨[], ["A", "B"]⟩ .todo = [] ∧
      (getCursor ⟨⟨0, 1⟩, ⟨0, 0⟩⟩ .todo).pos ≠ 0) ∧
    run (initState ⟨["A", "B"], []⟩)
        [(9, .down), (9, .charM), (9, .down), (9, .down), (9, .enter ""),
         (9, .charM), (9, .enter "")] = .crashed := by
  constructor
  · refine ⟨by decide, rfl, by decide⟩
  · decide

end ToDo
